import Mathlib

/-!
Verification of the batch-transcoding core of `video_converter` (src/main.py).

The Python source is shallowly embedded below: every definition is a direct
translation of the function (or inline code block) named in its doc comment.
Python `int` is modelled by `Int` (arbitrary precision), Python `float`
values that only ever carry media durations / parsed timestamps are modelled
by `ℚ`, Python strings by `String`, the filesystem by the list of paths that
exist, and `wx` widget state by plain record fields.
-/

/-- `get_audio_bitrate` (src/main.py lines 81-90): channel-count to AAC
bitrate step table.  Python `int` arguments are modelled by `Int`. -/
def get_audio_bitrate (channels : Int) : String :=
  if channels ≤ 1 then "128k"
  else if channels = 2 then "192k"
  else if channels ≤ 6 then "384k"
  else if channels ≥ 8 then "512k"
  else "256k"

/-- The audio part of the ffmpeg argument list built by
`run_ffmpeg_with_progress` (src/main.py lines 1090-1096).  The branch is
taken on the resolved `skip_audio` flag alone; the source audio codec is not
an input of this code.  The resulting list is spliced verbatim into the
final command at lines 1169 and 1191. -/
def buildAudioArgs (chk_skip_audio : Bool) (audio_channels : Int) (bitrate : String) :
    List String :=
  if chk_skip_audio then
    ["-c:a", "copy"]
  else
    ["-c:a", "aac", "-ac", toString audio_channels, "-b:a", bitrate]

/-- The per-job encode settings fields read by `run_ffmpeg_with_progress`
(src/main.py lines 1074-1088) out of a settings dict; the dicts are produced
by `get_current_settings` (lines 1353-1362). -/
structure EncodeSettings where
  skip_audio : Bool
  skip_video : Bool
  encode_mode : Int
  qp_slider : Int
  limit_res : Bool
  tonemapping : Int
  deriving DecidableEq, Repr

/-- A row's `settings` dict (src/main.py lines 946-954): the `"global"` key
says whether the row follows the shared (global) settings; when it is
`False` the remaining keys are a frozen per-row snapshot. -/
structure JobSettings where
  isGlobal : Bool
  fields : EncodeSettings
  deriving DecidableEq, Repr

/-- The settings resolution performed at the top of
`run_ffmpeg_with_progress` (src/main.py lines 1074-1088): if the job's dict
has `global = False` its own fields are used, otherwise
`get_current_settings()` is called, i.e. the shared settings are read at the
moment the job executes. -/
def resolveSettings (job : JobSettings) (currentGlobal : EncodeSettings) : EncodeSettings :=
  if job.isGlobal then currentGlobal else job.fields

/-- Python's `int()` conversion applied to a rational: truncation toward
zero (src/main.py lines 1235 and 1239 apply it to non-negative values). -/
def pyInt (q : ℚ) : ℤ :=
  if 0 ≤ q then ⌊q⌋ else ⌈q⌉

/-- Per-job progress (src/main.py lines 1213 and 1235):
`total_duration = max(duration, 1.0)` and
`row_progress = min(int(current_time / total_duration * 100), 100)`. -/
def rowProgress (current_time duration : ℚ) : ℤ :=
  min (pyInt (current_time / max duration 1 * 100)) 100

/-- Whole-queue progress (src/main.py lines 1237-1241):
`overall = done_duration + current_time`; if `all_jobs_duration > 0` the
percentage is computed, otherwise the per-job progress is reused. -/
def overallProgress (done_duration current_time all_jobs_duration : ℚ)
    (row_progress : ℤ) : ℤ :=
  if 0 < all_jobs_duration then
    min (pyInt ((done_duration + current_time) / all_jobs_duration * 100)) 100
  else
    row_progress

/-- Result of one job in the queue loop of `queue_worker`
(src/main.py lines 1031-1043): `run_ffmpeg_with_progress` returned ok,
returned not-ok, or the cancel event fired during the job. -/
inductive JobOutcome
  | success
  | failure
  | cancelled
  deriving DecidableEq, Repr

/-- `done_duration` accumulation in `queue_worker` (src/main.py lines 1036
and 1043): the duration of a job is added when it finishes, whether it
succeeded or failed; on cancellation the loop breaks without adding. -/
def completedDuration : List (ℚ × JobOutcome) → ℚ
  | [] => 0
  | (d, JobOutcome.success) :: rest => d + completedDuration rest
  | (d, JobOutcome.failure) :: rest => d + completedDuration rest
  | (_, JobOutcome.cancelled) :: _ => 0

/-- The scale-down filter string appended by `run_ffmpeg_with_progress`
(src/main.py line 1122). -/
def scaleFilterStr : String :=
  ",scale=\x27if(gt(iw,1920),1920,iw):if(gt(ih,1080),1080,ih):force_original_aspect_ratio=decrease\x27"

/-- `scale_filter` construction (src/main.py lines 1113-1122): the scale
filter is produced exactly when `chk_limit_res` is set and the probed source
dimensions exceed the 1920x1080 box on either axis; otherwise it is the
empty string. -/
def buildScaleFilter (chk_limit_res : Bool) (w h : Int) : String :=
  if chk_limit_res = true ∧ (1920 < w ∨ 1080 < h) then scaleFilterStr else ""

/-- The tone-mapping filter chain of src/main.py lines 1125-1128 (without
the trailing `scale_filter` interpolation). -/
def tonemapChainStr : String :=
  "zscale=t=linear:npl=30,format=gbrpf32le," ++
  "zscale=p=bt709,tonemap=hable:param=1.5:desat=0," ++
  "zscale=t=bt709:m=bt709:r=pc,format=yuv420p"

/-- `vf_filter` construction (src/main.py lines 1124-1132): the tone-map
chain or the plain pixel-format filter, with `scale_filter` appended. -/
def buildVfFilter (needs_tonemap : Bool) (scale_filter : String) : String :=
  if needs_tonemap then tonemapChainStr ++ scale_filter
  else "format=yuv420p" ++ scale_filter

/-- The functions `lead` and `hasSub` form an executable substring test
used only to state that a filter chain contains the scale filter:
`lead n h` says `n` is an initial segment of `h`, and `hasSub n h` that
`n` occurs contiguously somewhere in `h`. -/
def lead : List Char → List Char → Bool
  | [], _ => true
  | _ :: _, [] => false
  | a :: as, b :: bs => a == b && lead as bs

/-- See `lead`. -/
def hasSub (needle : List Char) : List Char → Bool
  | [] => lead needle []
  | c :: rest => lead needle (c :: rest) || hasSub needle rest

/-- A filter chain string contains the scale-down filter. -/
def containsScaleFilter (s : String) : Bool :=
  hasSub scaleFilterStr.data s.data

/-- Job status as displayed in the list's status column by `queue_worker`
(src/main.py lines 929, 1011, 1033, 1038, 1042). -/
inductive JobStatus
  | pending
  | done
  | failed
  | cancelled
  deriving DecidableEq, Repr

/-- Status written for one finished job by `queue_worker`
(src/main.py lines 1031-1043). -/
def outcomeStatus : JobOutcome → JobStatus
  | JobOutcome.success => JobStatus.done
  | JobOutcome.failure => JobStatus.failed
  | JobOutcome.cancelled => JobStatus.cancelled

/-- The statuses of all queued jobs after `queue_worker`'s loop
(src/main.py lines 985-1043) runs with the given per-job outcomes: each job
is marked from its outcome, and after a cancelled job the loop `break`s so
every later job keeps its initial `pending` status. -/
def queueStatuses : List JobOutcome → List JobStatus
  | [] => []
  | JobOutcome.success :: rest => JobStatus.done :: queueStatuses rest
  | JobOutcome.failure :: rest => JobStatus.failed :: queueStatuses rest
  | JobOutcome.cancelled :: rest =>
      JobStatus.cancelled :: rest.map (fun _ => JobStatus.pending)

/-- Observable effects of `cancel_conversion` (src/main.py lines 1278-1310)
modelled abstractly: whether `terminate()` was called on the engine process,
whether the `taskkill /F /T` force-kill of the process tree was issued, and
the set of existing files afterwards.  Real process state is abstracted by
two booleans: `procAlive` models `self.process and self.process.poll() is
None` on entry, and the caller-supplied `stillAliveAfterGrace` models
`self.process.poll() is None` after the 0.5 s grace sleep.  The app is
Windows-only (it imports `winreg`), so the `sys.platform` guard before
`taskkill` is true. -/
structure CancelEffects where
  terminated : Bool
  forceKilledTree : Bool
  fsAfter : List String
  deriving DecidableEq, Repr

/-- `cancel_conversion` (src/main.py lines 1278-1310): terminate the engine
process if it is still running, force-kill its tree if it survives the
grace period, then delete `current_output_file` if it exists. -/
def cancelConversion (procAlive stillAliveAfterGrace : Bool)
    (current_output_file : Option String) (fs : List String) : CancelEffects :=
  let term := procAlive
  let kill := procAlive && stillAliveAfterGrace
  let fs' :=
    match current_output_file with
    | none => fs
    | some out => if out ∈ fs then fs.filter (fun s => s != out) else fs
  ⟨term, kill, fs'⟩

/-- Decimal digit characters of a natural number, most significant first;
the first argument is structural fuel (any fuel `≥ n` gives the digits of
`n`).  Together with `natDecimal` this embeds Python's `str(n)` / f-string
rendering of the loop counter in `unique_output_path`. -/
def natDecimalAux : Nat → Nat → List Char
  | 0, _ => []
  | fuel + 1, n =>
    if n = 0 then []
    else natDecimalAux fuel (n / 10) ++ [Nat.digitChar (n % 10)]

/-- Python's `str` on a non-negative integer: its decimal digits. -/
def natDecimal (n : Nat) : String :=
  if n = 0 then "0" else ⟨natDecimalAux n n⟩

/-- Last index (counting from `start`) at which `pred` holds, or `-1`:
embeds Python's `str.rfind` used by `os.path.splitext` / `os.path.split`. -/
def rfindIdxAux (pred : Char → Bool) : List Char → Int → Int
  | [], _ => -1
  | c :: rest, i =>
    let r := rfindIdxAux pred rest (i + 1)
    if r != -1 then r
    else if pred c then i else -1

/-- See `rfindIdxAux`. -/
def rfindIdx (pred : Char → Bool) (l : List Char) : Int :=
  rfindIdxAux pred l 0

/-- `os.path.splitext(p)[0]` on Windows (`ntpath.splitext` via
`genericpath._splitext` with `sep='\\'`, `altsep='/'`, `extsep='.'`): cut at
the last dot of the basename stretch, provided some earlier basename
character is not a dot (so dotfiles keep their name). -/
def splitextRoot (p : String) : String :=
  let l := p.data
  let sepIndex := rfindIdx (fun c => c == '\\' || c == '/') l
  let dotIndex := rfindIdx (fun c => c == '.') l
  if sepIndex < dotIndex then
    let nameStart := (sepIndex + 1).toNat
    let dotN := dotIndex.toNat
    if ((l.drop nameStart).take (dotN - nameStart)).any (fun c => c != '.') then
      ⟨l.take dotN⟩
    else p
  else p

/-- `os.path.basename` on Windows for paths whose drive, if any, is
followed by a separator (the app always handles full file paths): the part
after the last `\` or `/`. -/
def basenameW (p : String) : String :=
  let l := p.data
  let sepIndex := rfindIdx (fun c => c == '\\' || c == '/') l
  ⟨l.drop (sepIndex + 1).toNat⟩

/-- `os.path.join(folder, name)` on Windows for a relative, drive-less
`name` (the only shape `unique_output_path` joins): insert `\` unless
`folder` is empty or already ends in a separator or a drive colon. -/
def joinW (folder name : String) : String :=
  if folder == "" then name
  else
    match folder.data.getLast? with
    | some c => if c == '\\' || c == '/' || c == ':' then folder ++ name
                else folder ++ "\\" ++ name
    | none => name

/-- The candidate sequence probed by `unique_output_path`
(src/main.py lines 359-383).  Index `0` is the first candidate (`out`), and
index `k ≥ 1` is the candidate built with loop counter `n = k + 1` (the
loop starts at `n = 2`).  The branch on `not save_folder or not
os.path.isdir(save_folder)` is taken on the `Option` being `none`, the
empty string (falsy), or `isdir` failing; `isdir` abstracts
`os.path.isdir`.  Note the two branches name their numbered candidates
differently: the no-folder branch keeps the `_conv` marker inside `base`,
the folder branch drops it. -/
def folderInvalid (isdir : String → Bool) : Option String → Bool
  | none => true
  | some s => s == "" || !(isdir s)

/-- See the doc comment above `folderInvalid`; this is the candidate at
index `k`. -/
def outputCandidate (isdir : String → Bool) (save_folder : Option String)
    (input_path : String) (k : Nat) : String :=
  if folderInvalid isdir save_folder then
    if k = 0 then splitextRoot input_path ++ "_conv" ++ ".mp4"
    else splitextRoot input_path ++ "_conv" ++ "_" ++ natDecimal (k + 1) ++ ".mp4"
  else
    if k = 0 then
      joinW (save_folder.getD "") (splitextRoot (basenameW input_path) ++ "_conv" ++ ".mp4")
    else
      joinW (save_folder.getD "") (splitextRoot (basenameW input_path) ++ "_" ++ natDecimal (k + 1) ++ ".mp4")

/-- An upper bound for the lengths of all strings in a list; used to show
the probing loop of `unique_output_path` terminates. -/
def maxLen (fs : List String) : Nat :=
  fs.foldr (fun s m => max s.length m) 0

theorem length_le_maxLen {fs : List String} {s : String} (h : s ∈ fs) :
    s.length ≤ maxLen fs := by
  induction fs with
  | nil => cases h
  | cons t rest ih =>
    rcases List.mem_cons.mp h with rfl | h'
    · exact le_max_left _ _
    · exact le_trans (ih h') (le_max_right _ _)

theorem natDecimalAux_zero (fuel : Nat) : natDecimalAux fuel 0 = [] := by
  cases fuel <;> simp [natDecimalAux]

theorem natDecimalAux_stable :
    ∀ fuel fuel' n : Nat, n ≤ fuel → n ≤ fuel' →
      natDecimalAux fuel n = natDecimalAux fuel' n := by
  intro fuel
  induction fuel with
  | zero =>
    intro fuel' n hn _
    interval_cases n
    simp [natDecimalAux, natDecimalAux_zero]
  | succ f ih =>
    intro fuel' n hn hn'
    by_cases h0 : n = 0
    · subst h0; simp [natDecimalAux_zero]
    · have hpos : 0 < n := Nat.pos_of_ne_zero h0
      obtain ⟨g, rfl⟩ : ∃ g, fuel' = g + 1 := by
        cases fuel' with
        | zero => omega
        | succ g => exact ⟨g, rfl⟩
      have hdiv : n / 10 < n := Nat.div_lt_self hpos (by norm_num)
      simp only [natDecimalAux, h0, if_false]
      rw [ih g (n / 10) (by omega) (by omega)]

/-- Digit list of `n` with canonical fuel. -/
def digitsOf (n : Nat) : List Char := natDecimalAux n n

theorem digitsOf_step {n : Nat} (h : 0 < n) :
    digitsOf n = digitsOf (n / 10) ++ [Nat.digitChar (n % 10)] := by
  obtain ⟨m, rfl⟩ : ∃ m, n = m + 1 := ⟨n - 1, by omega⟩
  have hdiv : (m + 1) / 10 ≤ m := by
    have := Nat.div_lt_self (Nat.succ_pos m) (show 1 < 10 by norm_num)
    omega
  show natDecimalAux (m + 1) (m + 1) = _
  simp only [natDecimalAux, Nat.succ_ne_zero, if_false]
  rw [natDecimalAux_stable m ((m + 1) / 10) ((m + 1) / 10) hdiv le_rfl]
  rfl

theorem digitsOf_pow_length (j : Nat) : (digitsOf (10 ^ j)).length = j + 1 := by
  induction j with
  | zero =>
    simp [digitsOf, natDecimalAux, natDecimalAux_zero]
  | succ j ih =>
    have hpos : 0 < 10 ^ (j + 1) := Nat.pos_pow_of_pos _ (by norm_num)
    rw [digitsOf_step hpos]
    have hdiv : 10 ^ (j + 1) / 10 = 10 ^ j := by
      rw [pow_succ]
      exact Nat.mul_div_cancel _ (by norm_num)
    rw [hdiv, List.length_append, ih]
    rfl

theorem natDecimal_pow_length (j : Nat) : (natDecimal (10 ^ j)).length = j + 1 := by
  have hne : 10 ^ j ≠ 0 := (Nat.pos_pow_of_pos _ (by norm_num)).ne'
  rw [natDecimal, if_neg hne]
  show (digitsOf (10 ^ j)).length = j + 1
  exact digitsOf_pow_length j

theorem joinW_length_ge (folder name : String) :
    name.length ≤ (joinW folder name).length := by
  rw [joinW]
  split
  · exact le_rfl
  · rcases h : folder.data.getLast? with _ | c
    · simp
    · simp only []
      split
      · rw [String.length_append]; omega
      · rw [String.length_append, String.length_append]; omega

theorem outputCandidate_length_unbounded
    (isdir : String → Bool) (sf : Option String) (inp : String) (L : Nat) :
    ∃ k, L < (outputCandidate isdir sf inp k).length := by
  refine ⟨10 ^ (L + 1) - 1, ?_⟩
  have hten : 10 ≤ 10 ^ (L + 1) := by
    calc 10 = 10 ^ 1 := (pow_one 10).symm
    _ ≤ 10 ^ (L + 1) := Nat.pow_le_pow_right (by norm_num) (by omega)
  have hk0 : 10 ^ (L + 1) - 1 ≠ 0 := by omega
  have hk1 : 10 ^ (L + 1) - 1 + 1 = 10 ^ (L + 1) := by omega
  have hnd : (natDecimal (10 ^ (L + 1) - 1 + 1)).length = L + 2 := by
    rw [hk1, natDecimal_pow_length]
  rw [outputCandidate, if_neg hk0, if_neg hk0]
  split
  · simp only [String.length_append]
    rw [hnd]
    omega
  · refine lt_of_lt_of_le ?_ (joinW_length_ge _ _)
    simp only [String.length_append]
    rw [hnd]
    omega

theorem exists_free_candidate (fs : List String) (isdir : String → Bool)
    (sf : Option String) (inp : String) :
    ∃ k, outputCandidate isdir sf inp k ∉ fs := by
  obtain ⟨k, hk⟩ := outputCandidate_length_unbounded isdir sf inp (maxLen fs)
  refine ⟨k, fun hmem => ?_⟩
  have := length_le_maxLen hmem
  omega

/-- `unique_output_path` (src/main.py lines 359-383): return the first
candidate in the probing sequence that does not exist on the filesystem
`fs` (the list of existing paths, embedding `os.path.exists`).  The
unbounded `while True` loop is embedded as the least free index, which
exists because candidate names grow without bound. -/
def unique_output_path (fs : List String) (isdir : String → Bool)
    (save_folder : Option String) (input_path : String) : String :=
  outputCandidate isdir save_folder input_path
    (Nat.find (exists_free_candidate fs isdir save_folder input_path))

theorem unique_output_path_not_mem (fs : List String) (isdir : String → Bool)
    (sf : Option String) (inp : String) :
    unique_output_path fs isdir sf inp ∉ fs :=
  Nat.find_spec (exists_free_candidate fs isdir sf inp)

theorem unique_output_path_eq_of (fs : List String) (isdir : String → Bool)
    (sf : Option String) (inp : String) (K : Nat)
    (hfree : outputCandidate isdir sf inp K ∉ fs)
    (hbusy : ∀ j < K, outputCandidate isdir sf inp j ∈ fs) :
    unique_output_path fs isdir sf inp = outputCandidate isdir sf inp K := by
  have : Nat.find (exists_free_candidate fs isdir sf inp) = K :=
    (Nat.find_eq_iff _).mpr ⟨hfree, fun n hn => not_not_intro (hbusy n hn)⟩
  rw [unique_output_path, this]

theorem queueStatuses_append_cancelled (pre post : List JobOutcome)
    (hpre : ∀ o ∈ pre, o ≠ JobOutcome.cancelled) :
    queueStatuses (pre ++ JobOutcome.cancelled :: post) =
      pre.map outcomeStatus ++
        JobStatus.cancelled :: post.map (fun _ => JobStatus.pending) := by
  induction pre with
  | nil => simp [queueStatuses]
  | cons o rest ih =>
    have hrest : ∀ o ∈ rest, o ≠ JobOutcome.cancelled :=
      fun o ho => hpre o (List.mem_cons_of_mem _ ho)
    cases o with
    | success =>
      simp only [List.cons_append, queueStatuses, List.map, outcomeStatus, List.append_eq]
      rw [ih hrest]
    | failure =>
      simp only [List.cons_append, queueStatuses, List.map, outcomeStatus, List.append_eq]
      rw [ih hrest]
    | cancelled =>
      exact absurd rfl (hpre _ (List.mem_cons_self _ _))

/-- C1 counterexample: a job whose source audio is already AAC (2 channels,
codec `aac`) with `skip_audio` left off is still transcoded — the audio
argument builder of `run_ffmpeg_with_progress` (src/main.py lines
1090-1096) never inspects the source codec, so no pass-through happens in
the case the claim requires it. -/
theorem c1_counterexample :
    buildAudioArgs false 2 (get_audio_bitrate 2) =
      ["-c:a", "aac", "-ac", "2", "-b:a", "192k"] ∧
    buildAudioArgs false 2 (get_audio_bitrate 2) ≠ ["-c:a", "copy"] := by
  constructor <;> decide

/-- C1 (amended): the built argument list passes the audio stream through
(`-c:a copy`) exactly when the resolved `skip_audio` flag is set — the
source audio codec is never consulted; otherwise it transcodes to AAC
preserving the source channel count, with the bitrate chosen by the
channel-to-bitrate table (as wired in `queue_worker`, src/main.py line
1008). -/
theorem c1_audio_args (ch : Int) :
    buildAudioArgs true ch (get_audio_bitrate ch) = ["-c:a", "copy"] ∧
    buildAudioArgs false ch (get_audio_bitrate ch) =
      ["-c:a", "aac", "-ac", toString ch, "-b:a", get_audio_bitrate ch] := by
  constructor <;> rfl

/-- C2: for every integer channel count, `get_audio_bitrate` returns 128k
for at most 1 channel, 192k for exactly 2, 384k for 3..6, 512k for 8 and
above, and 256k otherwise — so 7 channels hit the fallback. -/
theorem c2_bitrate_table (c : Int) :
    (c ≤ 1 → get_audio_bitrate c = "128k") ∧
    (c = 2 → get_audio_bitrate c = "192k") ∧
    (3 ≤ c → c ≤ 6 → get_audio_bitrate c = "384k") ∧
    (8 ≤ c → get_audio_bitrate c = "512k") ∧
    (c = 7 → get_audio_bitrate c = "256k") := by
  refine ⟨?_, ?_, ?_, ?_, ?_⟩ <;>
    (intros; rw [get_audio_bitrate]; split_ifs <;> first | rfl | (exfalso; omega))

/-- Witness for C2 at the fallback boundary. -/
theorem c2_witness : get_audio_bitrate 7 = "256k" :=
  (c2_bitrate_table 7).2.2.2.2 rfl

/-- C3: resolving a job's effective settings returns the job's own snapshot
when its dict has `global = False`, and otherwise returns whatever the
shared settings are at the moment the job executes (`gAtExec`) — the value
they had when the job was queued (`gAtQueue`) never enters the result, so
any mutation between queueing and execution is reflected. -/
theorem c3_resolve_late_bound (job : JobSettings) (gAtQueue gAtExec : EncodeSettings) :
    (job.isGlobal = false → resolveSettings job gAtExec = job.fields) ∧
    (job.isGlobal = true → resolveSettings job gAtExec = gAtExec) := by
  constructor <;> intro h <;> simp [resolveSettings, h]

/-- Witness for C3: an overridden job keeps its snapshot, a global job
takes the execution-time settings. -/
theorem c3_witness :
    resolveSettings ⟨false, ⟨true, false, 0, 22, false, 0⟩⟩ ⟨false, true, 1, 8, true, 2⟩ =
      ⟨true, false, 0, 22, false, 0⟩ ∧
    resolveSettings ⟨true, ⟨true, false, 0, 22, false, 0⟩⟩ ⟨false, true, 1, 8, true, 2⟩ =
      ⟨false, true, 1, 8, true, 2⟩ :=
  ⟨(c3_resolve_late_bound ⟨false, ⟨true, false, 0, 22, false, 0⟩⟩
      ⟨true, true, 0, 14, false, 1⟩ ⟨false, true, 1, 8, true, 2⟩).1 rfl,
   (c3_resolve_late_bound ⟨true, ⟨true, false, 0, 22, false, 0⟩⟩
      ⟨true, true, 0, 14, false, 1⟩ ⟨false, true, 1, 8, true, 2⟩).2 rfl⟩

/-- C4: with a positive total queue duration the reported whole-queue
progress is `min(100, floor((completed + elapsed) / total * 100))`; in the
spec's scenario (queued durations 10, 20, 30 s, job 1 finished, job 2 at
10 s) it is 33. -/
theorem c4_overall_progress :
    (∀ (done cur total : ℚ) (row : ℤ), 0 < total → 0 ≤ done → 0 ≤ cur →
      overallProgress done cur total row = min 100 ⌊(done + cur) / total * 100⌋) ∧
    overallProgress (completedDuration [(10, JobOutcome.success)]) 10 (10 + 20 + 30) 0 = 33 := by
  constructor
  · intro done cur total row hpos hd hc
    have hq : (0:ℚ) ≤ (done + cur) / total * 100 :=
      mul_nonneg (div_nonneg (by linarith) hpos.le) (by norm_num)
    rw [overallProgress, if_pos hpos, pyInt, if_pos hq, min_comm]
  · show overallProgress (10 + completedDuration []) 10 (10 + 20 + 30) 0 = 33
    rw [show (10:ℚ) + completedDuration [] = 10 from by rw [completedDuration]; ring]
    rw [overallProgress, if_pos (by norm_num), pyInt, if_pos (by norm_num)]
    norm_num

/-- Witness for C4 at the spec's scenario values. -/
theorem c4_witness :
    overallProgress 10 10 60 0 = min 100 ⌊((10:ℚ) + 10) / 60 * 100⌋ :=
  c4_overall_progress.1 10 10 60 0 (by norm_num) (by norm_num) (by norm_num)

/-- C5: per-job progress equals `min(100, floor(t / d * 100))` with the
duration floored at 1, always lies in `[0, 100]`, and is monotone in the
parsed elapsed time — even past the job's duration, where the clamp holds
it at 100. -/
theorem c5_row_progress :
    (∀ t d : ℚ, 0 ≤ t →
      rowProgress t d = min 100 ⌊t / max d 1 * 100⌋ ∧
      0 ≤ rowProgress t d ∧ rowProgress t d ≤ 100) ∧
    (∀ d t₁ t₂ : ℚ, 0 ≤ t₁ → t₁ ≤ t₂ → rowProgress t₁ d ≤ rowProgress t₂ d) := by
  have hden : ∀ d : ℚ, (0:ℚ) < max d 1 :=
    fun d => lt_of_lt_of_le one_pos (le_max_right d 1)
  have hqnn : ∀ t d : ℚ, 0 ≤ t → (0:ℚ) ≤ t / max d 1 * 100 :=
    fun t d ht => mul_nonneg (div_nonneg ht (hden d).le) (by norm_num)
  constructor
  · intro t d ht
    refine ⟨?_, ?_, ?_⟩
    · rw [rowProgress, pyInt, if_pos (hqnn t d ht), min_comm]
    · rw [rowProgress, pyInt, if_pos (hqnn t d ht)]
      exact le_min (Int.floor_nonneg.mpr (hqnn t d ht)) (by norm_num)
    · exact min_le_right _ _
  · intro d t₁ t₂ ht₁ h12
    have hq12 : t₁ / max d 1 * 100 ≤ t₂ / max d 1 * 100 :=
      mul_le_mul_of_nonneg_right ((div_le_div_iff_of_pos_right (hden d)).mpr h12) (by norm_num)
    rw [rowProgress, rowProgress, pyInt, pyInt,
      if_pos (hqnn t₁ d ht₁), if_pos (hqnn t₂ d (le_trans ht₁ h12))]
    exact min_le_min (Int.floor_le_floor hq12) le_rfl

/-- Witness for C5: concrete formula instance and a monotone step. -/
theorem c5_witness :
    rowProgress 5 10 = min 100 ⌊(5:ℚ) / max 10 1 * 100⌋ ∧
    rowProgress 5 10 ≤ rowProgress 7 10 :=
  ⟨((c5_row_progress.1) 5 10 (by norm_num)).1,
   (c5_row_progress.2) 10 5 7 (by norm_num) (by norm_num)⟩

/-- C6: the built filter chain contains the 1920x1080 scale-down filter
exactly when `limit_res` is set and the source exceeds the box on either
axis; a 3840x2160 source with the flag gets the filter, a 1280x720 source
with the same flag does not — in both tone-map branches. -/
theorem c6_scale_filter (ntm lr : Bool) (w h : Int) :
    (containsScaleFilter (buildVfFilter ntm (buildScaleFilter lr w h)) = true ↔
      lr = true ∧ (1920 < w ∨ 1080 < h)) ∧
    containsScaleFilter (buildVfFilter ntm (buildScaleFilter true 3840 2160)) = true ∧
    containsScaleFilter (buildVfFilter ntm (buildScaleFilter true 1280 720)) = false := by
  refine ⟨?_, ?_, ?_⟩
  · by_cases hc : lr = true ∧ (1920 < w ∨ 1080 < h)
    · rw [buildScaleFilter, if_pos hc]
      refine iff_of_true ?_ hc
      cases ntm <;> decide
    · rw [buildScaleFilter, if_neg hc]
      refine iff_of_false ?_ hc
      cases ntm <;> decide
  · cases ntm <;> decide
  · cases ntm <;> decide

/-- C7: on cancellation mid-job, `cancel_conversion` asks the engine
process to terminate, force-kills its process tree if it is still alive
after the grace period, and deletes the partially written output file; and
`queue_worker` marks the cancelled job `Cancelled` and starts no later job
(they keep their initial `pending` state). -/
theorem c7_cancellation (procAlive stillAlive : Bool) (out : String) (fs : List String)
    (pre post : List JobOutcome) (hpre : ∀ o ∈ pre, o ≠ JobOutcome.cancelled) :
    (cancelConversion procAlive stillAlive (some out) fs).terminated = procAlive ∧
    (cancelConversion procAlive stillAlive (some out) fs).forceKilledTree =
      (procAlive && stillAlive) ∧
    out ∉ (cancelConversion procAlive stillAlive (some out) fs).fsAfter ∧
    queueStatuses (pre ++ JobOutcome.cancelled :: post) =
      pre.map outcomeStatus ++
        JobStatus.cancelled :: post.map (fun _ => JobStatus.pending) := by
  refine ⟨rfl, rfl, ?_, queueStatuses_append_cancelled pre post hpre⟩
  show out ∉ (if out ∈ fs then fs.filter (fun s => s != out) else fs)
  split
  · intro hmem
    rw [List.mem_filter] at hmem
    simp at hmem
  · assumption

/-- Witness for C7: one finished job, a cancelled second job, an unstarted
third job, and a partially written output file that gets removed. -/
theorem c7_witness :
    (cancelConversion true true (some "out.mp4") ["out.mp4"]).terminated = true ∧
    (cancelConversion true true (some "out.mp4") ["out.mp4"]).forceKilledTree =
      (true && true) ∧
    "out.mp4" ∉ (cancelConversion true true (some "out.mp4") ["out.mp4"]).fsAfter ∧
    queueStatuses ([JobOutcome.success] ++ JobOutcome.cancelled :: [JobOutcome.failure]) =
      [JobOutcome.success].map outcomeStatus ++
        JobStatus.cancelled :: [JobOutcome.failure].map (fun _ => JobStatus.pending) :=
  c7_cancellation true true "out.mp4" ["out.mp4"] [JobOutcome.success] [JobOutcome.failure]
    (by rintro o ho; rw [List.mem_singleton] at ho; subst ho; decide)

/-- C8: `unique_output_path` returns a path that exists nowhere on the
filesystem; the returned path is the first candidate of the probing
sequence that is free (every earlier candidate collides); and when the
first candidate is already free it is returned as-is, so — the function
being a pure function of the filesystem, which the call leaves unchanged —
calling it twice without creating the file yields the same path. -/
theorem c8_unique_output_path (fs : List String) (isdir : String → Bool)
    (sf : Option String) (inp : String) :
    unique_output_path fs isdir sf inp ∉ fs ∧
    (∃ k, unique_output_path fs isdir sf inp = outputCandidate isdir sf inp k ∧
      outputCandidate isdir sf inp k ∉ fs ∧
      ∀ j < k, outputCandidate isdir sf inp j ∈ fs) ∧
    (outputCandidate isdir sf inp 0 ∉ fs →
      unique_output_path fs isdir sf inp = outputCandidate isdir sf inp 0) := by
  refine ⟨unique_output_path_not_mem fs isdir sf inp,
    ⟨Nat.find (exists_free_candidate fs isdir sf inp), rfl,
      Nat.find_spec (exists_free_candidate fs isdir sf inp), ?_⟩, ?_⟩
  · intro j hj
    exact not_not.mp (Nat.find_min (exists_free_candidate fs isdir sf inp) hj)
  · intro h0
    exact unique_output_path_eq_of fs isdir sf inp 0 h0 (fun j hj => absurd hj (by omega))

/-- Witness for C8 on an empty destination directory. -/
theorem c8_witness :
    unique_output_path [] (fun _ => false) none "C:\\v\\m.mkv" ∉ ([] : List String) ∧
    unique_output_path [] (fun _ => false) none "C:\\v\\m.mkv" =
      outputCandidate (fun _ => false) none "C:\\v\\m.mkv" 0 :=
  ⟨(c8_unique_output_path [] (fun _ => false) none "C:\\v\\m.mkv").1,
   (c8_unique_output_path [] (fun _ => false) none "C:\\v\\m.mkv").2.2 (by decide)⟩

/-- C9: when the total queue duration recorded at run start is 0 the
division is skipped and the whole-queue progress reported for a parsed
line is exactly the current job's per-job progress. -/
theorem c9_zero_total_uses_row (done cur t d : ℚ) :
    overallProgress done cur 0 (rowProgress t d) = rowProgress t d := by
  rw [overallProgress, if_neg (by norm_num)]

/-- C10: the two branches of `unique_output_path` name their numbered
candidates differently.  Without a valid save folder the `_conv` marker is
part of `base`, so numbered candidates keep it
(`stem_conv.mp4`, `stem_conv_2.mp4`, ...); with a valid save folder the
marker is appended only to the first candidate, so numbered candidates
drop it (`base_conv.mp4`, `base_2.mp4`, ...).  The two concrete runs show
the divergence on a colliding first candidate. -/
theorem c10_candidate_schemes (isdir : String → Bool) (folder inp : String) (n : Nat) :
    (outputCandidate isdir none inp 0 = splitextRoot inp ++ "_conv" ++ ".mp4" ∧
     outputCandidate isdir none inp (n + 1) =
       splitextRoot inp ++ "_conv" ++ "_" ++ natDecimal (n + 2) ++ ".mp4") ∧
    (folderInvalid isdir (some folder) = false →
      outputCandidate isdir (some folder) inp 0 =
        joinW folder (splitextRoot (basenameW inp) ++ "_conv" ++ ".mp4") ∧
      outputCandidate isdir (some folder) inp (n + 1) =
        joinW folder (splitextRoot (basenameW inp) ++ "_" ++ natDecimal (n + 2) ++ ".mp4")) ∧
    unique_output_path ["C:\\v\\m_conv.mp4"] (fun _ => false) none "C:\\v\\m.mkv" =
      "C:\\v\\m_conv_2.mp4" ∧
    unique_output_path ["D:\\out\\m_conv.mp4"] (fun _ => true) (some "D:\\out") "C:\\v\\m.mkv" =
      "D:\\out\\m_2.mp4" := by
  refine ⟨⟨rfl, ?_⟩, fun hval => ⟨?_, ?_⟩, ?_, ?_⟩
  · simp [outputCandidate, folderInvalid]
  · simp [outputCandidate, hval]
  · simp [outputCandidate, hval]
  · rw [unique_output_path_eq_of ["C:\\v\\m_conv.mp4"] (fun _ => false) none
      "C:\\v\\m.mkv" 1 (by decide) ?busy1]
    · decide
    case busy1 =>
      intro j hj
      have hj0 : j = 0 := by omega
      subst hj0
      decide
  · rw [unique_output_path_eq_of ["D:\\out\\m_conv.mp4"] (fun _ => true) (some "D:\\out")
      "C:\\v\\m.mkv" 1 (by decide) ?busy2]
    · decide
    case busy2 =>
      intro j hj
      have hj0 : j = 0 := by omega
      subst hj0
      decide

/-- Witness for C10 in the valid-folder branch. -/
theorem c10_witness :
    outputCandidate (fun _ => true) (some "D:\\out") "C:\\v\\m.mkv" 0 =
      joinW "D:\\out" (splitextRoot (basenameW "C:\\v\\m.mkv") ++ "_conv" ++ ".mp4") ∧
    outputCandidate (fun _ => true) (some "D:\\out") "C:\\v\\m.mkv" 1 =
      joinW "D:\\out" (splitextRoot (basenameW "C:\\v\\m.mkv") ++ "_" ++ natDecimal 2 ++ ".mp4") :=
  (c10_candidate_schemes (fun _ => true) "D:\\out" "C:\\v\\m.mkv" 0).2.1 (by decide)
